import Mathlib

/-!
Verification of the invitation-lifecycle core of `todo-hero-hub`
(`src/lib/supabase.ts` / `src/lib/constants.ts`).

The embedding is shallow: timestamps are milliseconds as `Nat`, the
`invitations` table is a `List Invitation`, and the remote collaborators
(auth provider, data store) are modelled by explicit parameters carrying
their outcome (`Bool` flags for query/update failure, a `SignUpResponse`
for the auth call).  Each definition mirrors one exported function of the
source file; control flow is kept branch for branch.
-/

namespace TodoHeroHub

/-- The `role` column: `'admin' | 'user'`. -/
inductive Role where
  | admin
  | user
deriving DecidableEq, Repr

/-- One row of the `invitations` table (`export type Invitation` in the
source).  Timestamps (`created_at`, `expires_at`) are milliseconds since the
epoch, as `Nat`: the source stores ISO strings and compares them through
`new Date(...)`, i.e. through their millisecond value. -/
structure Invitation where
  id : String
  email : String
  token : String
  role : Role
  created_by : String
  created_at : Nat
  expires_at : Nat
  used : Bool
deriving DecidableEq, Repr

/-- `inv.used === true` in `verifyInvitationToken`. -/
def Invitation.isUsed (inv : Invitation) : Bool :=
  inv.used

/-- `new Date(inv.expires_at) < new Date()` in `verifyInvitationToken`:
the row counts as expired exactly when its expiry is strictly before the
current instant `now`. -/
def Invitation.isExpired (inv : Invitation) (now : Nat) : Bool :=
  decide (inv.expires_at < now)

/-- The predicate of the `invitations.find(...)` call in
`verifyInvitationToken`: `!isUsed && !isExpired`. -/
def Invitation.isValid (inv : Invitation) (now : Nat) : Bool :=
  !inv.isUsed && !(inv.isExpired now)

/-- The store's `.select('*').eq('token', token)` on the `invitations`
table: all rows whose `token` column equals the presented token. -/
def selectByToken (db : List Invitation) (token : String) : List Invitation :=
  db.filter (fun inv => inv.token == token)

/-- The guard `!token || token.trim() === ''` of `verifyInvitationToken`:
the token is empty, or trimming it leaves the empty string.  `trim` deletes
exactly the leading and trailing whitespace, so it yields the empty string
iff every character of the token is whitespace (vacuously true for the
empty token, matching `!token`). -/
def isBlankToken (token : String) : Bool :=
  token == "" || token.data.all (fun c => c.isWhitespace)

/-- The failure reasons `verifyInvitationToken` can return in its
`{ error: ... }` objects. -/
inductive VerifyError where
  | not_found
  | already_used
  | expired
  | database_error
  | invalid
deriving DecidableEq, Repr

/-- Outcome of `verifyInvitationToken`: either the valid invitation row, or
an `{ error: reason }` object. -/
inductive VerifyResult where
  | ok (inv : Invitation)
  | err (e : VerifyError)
deriving DecidableEq, Repr

/-- `verifyInvitationToken(token)` from `src/lib/constants.ts`
(lines 201-268), the version whose distinct failure reasons the consumer
`AuthForm.tsx` branches on.  `db` is the full `invitations` table,
`queryFails` tells whether the store's select fails, `now` is the current
instant.  The second component counts the storage queries issued, so that
the short-circuit on blank tokens is observable.

Branches, in source order:
  * `!token || token.trim() === ''` → `{ error: 'not_found' }`, no query;
  * select fails → `{ error: 'database_error' }`;
  * no row matches → `{ error: 'not_found' }`;
  * `find` of a row with `!used && !expired` → return that row;
  * otherwise `find` of a used row → `{ error: 'already_used' }`;
  * otherwise `find` of an expired row → `{ error: 'expired' }`;
  * otherwise → `{ error: 'invalid' }`. -/
def verifyInvitationToken (db : List Invitation) (queryFails : Bool) (now : Nat)
    (token : String) : VerifyResult × Nat :=
  if isBlankToken token then
    (.err .not_found, 0)
  else if queryFails then
    (.err .database_error, 1)
  else
    let invitations := selectByToken db token
    if invitations.isEmpty then
      (.err .not_found, 1)
    else
      match invitations.find? (fun inv => inv.isValid now) with
      | some validInvitation => (.ok validInvitation, 1)
      | none =>
        match invitations.find? (fun inv => inv.isUsed) with
        | some _ => (.err .already_used, 1)
        | none =>
          match invitations.find? (fun inv => inv.isExpired now) with
          | some _ => (.err .expired, 1)
          | none => (.err .invalid, 1)

/-- Response of the auth collaborator's `supabase.auth.signUp` call:
`signupResponse.error` and `signupResponse.data?.user` are the two fields
the source inspects.  `user` carries the created account's id. -/
structure SignUpResponse where
  error : Option String
  user : Option String
deriving DecidableEq, Repr

/-- The store's `.update({ used: true }).eq('token', token)` on the
`invitations` table: set the `used` flag on every row whose token matches. -/
def markInvitationUsed (db : List Invitation) (token : String) : List Invitation :=
  db.map (fun inv => if inv.token == token then { inv with used := true } else inv)

/-- `signUp(email, password, token?)` from `src/lib/constants.ts`
(lines 52-81), restricted to its invitation bookkeeping: the auth
collaborator's response is `authResponse`, `updateFails` tells whether the
store's update throws (the source catches and ignores that), `db` is the
`invitations` table.  Returns the value the caller receives together with
the table after the call.

The source first awaits `supabase.auth.signUp`, then — only when a token
was provided, `signupResponse.error` is absent and `signupResponse.data?.user`
is present — updates the matching invitation to `used: true` inside a
`try/catch` whose `catch` only logs, and finally returns `signupResponse`
unconditionally. -/
def signUp (db : List Invitation) (authResponse : SignUpResponse)
    (updateFails : Bool) (token : Option String) : SignUpResponse × List Invitation :=
  match token with
  | none => (authResponse, db)
  | some t =>
    if authResponse.error == none && !(authResponse.user == none) then
      if updateFails then (authResponse, db)
      else (authResponse, markInvitationUsed db t)
    else (authResponse, db)

/-- `expiresAt.setDate(expiresAt.getDate() + 7)`: seven days, in
milliseconds. -/
def sevenDaysMs : Nat := 7 * 24 * 60 * 60 * 1000

/-- Return value of `createInvitation`: the persisted row and the
shareable link. -/
structure CreateResult where
  invitation : Invitation
  invitationLink : String
deriving DecidableEq, Repr

/-- `createInvitation(email, role)` from `src/lib/constants.ts`
(lines 136-171) on the success path.  `now` is the current instant,
`newId` the row id the store assigns, `token` the value of the source's
`generateToken()` (random, hence a parameter), `userId` the authenticated
creator.  The source sets `expiresAt` to now plus seven days and inserts
`email, token, role, created_by, expires_at`; the link is
`origin + '/login?token=' + token`.

Modelled from the spec: the `created_at` column is filled by the store at
insert time (persisted layout, spec section 6: `invitations(id, email,
token, role, created_by, created_at, expires_at, used)`); the insert
happens at the same instant `now`, and `used` starts `false`. -/
def createInvitation (origin : String) (now : Nat) (newId : String)
    (token : String) (userId : String) (email : String) (role : Role) : CreateResult :=
  let expiresAt := now + sevenDaysMs
  let invitation : Invitation :=
    { id := newId
      email := email
      token := token
      role := role
      created_by := userId
      created_at := now
      expires_at := expiresAt
      used := false }
  { invitation := invitation
    invitationLink := origin ++ "/login?token=" ++ token }

/-- What `deleteInvitation` can produce: the source returns `true` when the
store reports no error and `throw`s the error otherwise.  No other outcome a
caller could observe exists in the code. -/
inductive DeleteOutcome where
  | success
  | thrown (msg : String)
deriving DecidableEq, Repr

/-- `deleteInvitation(id)` from `src/lib/constants.ts` (lines 187-199):
`.delete().eq('id', id)` removes every row with that id (removing zero rows
is not an error for the store), then the source throws on a store error and
otherwise returns `true`.  `storeFails` tells whether the store reports an
error. -/
def deleteInvitation (db : List Invitation) (storeFails : Bool) (id : String) :
    DeleteOutcome × List Invitation :=
  if storeFails then (.thrown "delete failed", db)
  else (.success, db.filter (fun inv => !(inv.id == id)))

/-! ### Sample rows used by concrete witnesses -/

/-- A consumed invitation that is also past expiry at instant 5000. -/
def usedInv : Invitation :=
  { id := "i1", email := "a@x.com", token := "t", role := .admin,
    created_by := "u0", created_at := 0, expires_at := 100, used := true }

/-- An unconsumed invitation still live at instant 5000. -/
def freshInv : Invitation :=
  { id := "i2", email := "b@x.com", token := "t", role := .user,
    created_by := "u0", created_at := 0, expires_at := 9000, used := false }

/-- An unconsumed invitation already expired at instant 5000. -/
def expiredInv : Invitation :=
  { id := "i3", email := "c@x.com", token := "t", role := .user,
    created_by := "u0", created_at := 0, expires_at := 50, used := false }

/-- An unconsumed invitation whose expiry is exactly the instant 5000. -/
def boundaryInv : Invitation :=
  { id := "i4", email := "d@x.com", token := "t", role := .user,
    created_by := "u0", created_at := 0, expires_at := 5000, used := false }

/-! ### Branch lemmas for `verifyInvitationToken` on a successful query -/

/-- Non-blank token, successful query, no matching row: `not_found`. -/
theorem verify_eq_of_empty (db : List Invitation) (now : Nat) (token : String)
    (hblank : isBlankToken token = false) (h : selectByToken db token = []) :
    verifyInvitationToken db false now token = (.err .not_found, 1) := by
  simp [verifyInvitationToken, hblank, h]

/-- Non-blank token, successful query, the `find` of a valid row hits `v`:
the result is that row. -/
theorem verify_eq_of_find_valid (db : List Invitation) (now : Nat) (token : String)
    (v : Invitation) (hblank : isBlankToken token = false)
    (hv : (selectByToken db token).find? (fun inv => inv.isValid now) = some v) :
    verifyInvitationToken db false now token = (.ok v, 1) := by
  have hne : (selectByToken db token).isEmpty = false := by
    cases hl : selectByToken db token with
    | nil => rw [hl] at hv; simp at hv
    | cons a as => rfl
  simp [verifyInvitationToken, hblank, hne, hv]

/-- Non-blank token, successful query, no valid row but a used row:
`already_used`. -/
theorem verify_eq_of_find_used (db : List Invitation) (now : Nat) (token : String)
    (u : Invitation) (hblank : isBlankToken token = false)
    (hv : (selectByToken db token).find? (fun inv => inv.isValid now) = none)
    (hu : (selectByToken db token).find? (fun inv => inv.isUsed) = some u) :
    verifyInvitationToken db false now token = (.err .already_used, 1) := by
  have hne : (selectByToken db token).isEmpty = false := by
    cases hl : selectByToken db token with
    | nil => rw [hl] at hu; simp at hu
    | cons a as => rfl
  simp [verifyInvitationToken, hblank, hne, hv, hu]

/-- Non-blank token, successful query, no valid and no used row but an
expired one: `expired`. -/
theorem verify_eq_of_find_expired (db : List Invitation) (now : Nat) (token : String)
    (e : Invitation) (hblank : isBlankToken token = false)
    (hv : (selectByToken db token).find? (fun inv => inv.isValid now) = none)
    (hu : (selectByToken db token).find? (fun inv => inv.isUsed) = none)
    (he : (selectByToken db token).find? (fun inv => inv.isExpired now) = some e) :
    verifyInvitationToken db false now token = (.err .expired, 1) := by
  have hne : (selectByToken db token).isEmpty = false := by
    cases hl : selectByToken db token with
    | nil => rw [hl] at he; simp at he
    | cons a as => rfl
  simp [verifyInvitationToken, hblank, hne, hv, hu, he]

/-! ### Claim theorems -/

/-- **C1.**  In `signUp`, the auth collaborator's account creation is
attempted first, and the invitation table is touched only on a successful
creation: whenever account creation fails — an error is returned or no user
is created — the `invitations` table is returned unchanged, so every
invitation keeps `used = false` and stays usable for a retry. -/
theorem signUp_failed_account_creation_leaves_invitations
    (db : List Invitation) (authResponse : SignUpResponse) (updateFails : Bool)
    (t : String) (h : authResponse.error ≠ none ∨ authResponse.user = none) :
    (signUp db authResponse updateFails (some t)).snd = db := by
  rcases h with h | h
  · have hbe : (authResponse.error == none) = false := by
      simpa using h
    simp [signUp, hbe]
  · have hbu : (authResponse.user == none) = true := by
      simpa using h
    simp [signUp, hbu]

/-- Witness for C1: a failed account creation (`error` present, no user)
over a table holding one fresh invitation leaves the table unchanged. -/
theorem signUp_failed_account_creation_leaves_invitations_witness :
    (signUp [freshInv] { error := some "boom", user := none } false (some "t")).snd
      = [freshInv] :=
  signUp_failed_account_creation_leaves_invitations [freshInv]
    { error := some "boom", user := none } false "t" (Or.inl (by decide))

/-- **C3.**  When the update marking the invitation consumed fails after a
successful account creation (`updateFails = true`, no auth error, a user was
created), `signUp` still returns the successful signup response unchanged:
the bookkeeping failure is caught and never propagated to the caller. -/
theorem signUp_mark_used_failure_not_propagated
    (db : List Invitation) (authResponse : SignUpResponse) (t : String)
    (herr : authResponse.error = none) (huser : authResponse.user ≠ none) :
    (signUp db authResponse true (some t)).fst = authResponse := by
  unfold signUp
  split <;> try rfl
  all_goals split <;> try rfl

/-- Witness for C3: with a successful auth response and a failing
mark-as-used update, the caller still receives that successful response. -/
theorem signUp_mark_used_failure_not_propagated_witness :
    (signUp [freshInv] { error := none, user := some "u9" } true (some "t")).fst
      = { error := none, user := some "u9" } :=
  signUp_mark_used_failure_not_propagated [freshInv]
    { error := none, user := some "u9" } "t" (by decide) (by decide)

/-- **C2.**  When every invitation record matching the presented token has
`used = true` (by the data-model invariant the token is unique, so the match
set is normally a single used row), `verifyInvitationToken` returns
`already_used` — with no constraint whatsoever on the expiry timestamps, so
in particular also for rows past expiry: the used-check precedes the
expiry-check. -/
theorem verify_used_token_already_used
    (db : List Invitation) (now : Nat) (token : String)
    (hblank : isBlankToken token = false)
    (hne : selectByToken db token ≠ [])
    (hused : ∀ inv ∈ selectByToken db token, inv.used = true) :
    (verifyInvitationToken db false now token).fst = .err .already_used := by
  have hv : (selectByToken db token).find? (fun inv => inv.isValid now) = none := by
    rw [List.find?_eq_none]
    intro x hx
    simp [Invitation.isValid, Invitation.isUsed, hused x hx]
  have hex : ∃ x, x ∈ selectByToken db token ∧ x.isUsed = true := by
    cases hl : selectByToken db token with
    | nil => exact absurd hl hne
    | cons a as =>
      have ha : a ∈ selectByToken db token := by
        rw [hl]; exact List.mem_cons_self a as
      exact ⟨a, List.mem_cons_self a as, by simpa [Invitation.isUsed] using hused a ha⟩
  obtain ⟨u, hu⟩ := Option.isSome_iff_exists.mp (List.find?_isSome.mpr hex)
  rw [verify_eq_of_find_used db now token u hblank hv hu]

/-- Witness for C2: a single matching row that is both consumed and past
expiry at instant 5000 is reported `already_used`, not `expired`. -/
theorem verify_used_token_already_used_witness :
    usedInv.expires_at < 5000 ∧
    (verifyInvitationToken [usedInv] false 5000 "t").fst = .err .already_used :=
  ⟨by decide,
   verify_used_token_already_used [usedInv] 5000 "t" (by decide) (by decide) (by decide)⟩

/-- Counterexample to C4 as stated: a record with `used = false` whose
expiry timestamp equals the current instant is returned as a *valid*
invitation by `verifyInvitationToken` — the source compares with a strict
`new Date(inv.expires_at) < new Date()` — whereas the claim says such a
record is reported `expired`. -/
theorem verify_expiry_boundary_counterexample :
    boundaryInv.used = false ∧ boundaryInv.expires_at = 5000 ∧
    (verifyInvitationToken [boundaryInv] false 5000 "t").fst = .ok boundaryInv := by
  decide

/-- **C4 (amended).**  For a single matching record with `used = false`,
verification returns `expired` exactly when the expiry timestamp is
*strictly before* the current time, and returns the record (success) exactly
when the expiry timestamp is ≥ the current time; a record whose expiry
equals the current instant is reported valid, not expired. -/
theorem verify_unused_record_expiry_resolution
    (db : List Invitation) (now : Nat) (token : String) (inv : Invitation)
    (hblank : isBlankToken token = false)
    (hsel : selectByToken db token = [inv]) (hused : inv.used = false) :
    (verifyInvitationToken db false now token).fst =
      if inv.expires_at < now then .err .expired else .ok inv := by
  by_cases hexp : inv.expires_at < now
  · rw [if_pos hexp]
    have hv : (selectByToken db token).find? (fun i => i.isValid now) = none := by
      rw [hsel]
      simp [Invitation.isValid, Invitation.isUsed, Invitation.isExpired, hexp]
    have hu : (selectByToken db token).find? (fun i => i.isUsed) = none := by
      rw [hsel]
      simp [Invitation.isUsed, hused]
    have he : (selectByToken db token).find? (fun i => i.isExpired now) = some inv := by
      rw [hsel]
      simp [Invitation.isExpired, hexp]
    rw [verify_eq_of_find_expired db now token inv hblank hv hu he]
  · rw [if_neg hexp]
    have hv : (selectByToken db token).find? (fun i => i.isValid now) = some inv := by
      rw [hsel]
      simp [Invitation.isValid, Invitation.isUsed, Invitation.isExpired, hused, hexp]
    rw [verify_eq_of_find_valid db now token inv hblank hv]

/-- Witness for C4 (amended): the expired sample row is reported `expired`
at instant 5000. -/
theorem verify_unused_record_expiry_resolution_witness :
    (verifyInvitationToken [expiredInv] false 5000 "t").fst = .err .expired := by
  have h := verify_unused_record_expiry_resolution [expiredInv] 5000 "t" expiredInv
    (by decide) (by decide) (by decide)
  rwa [if_pos (by decide)] at h

/-- **C5.**  Whenever the storage query issued by `verifyInvitationToken`
fails (the token is not blank, so the query is actually issued), the result
is `{ error: 'database_error' }`, and in particular never `not_found`. -/
theorem verify_query_failure_database_error
    (db : List Invitation) (now : Nat) (token : String)
    (hblank : isBlankToken token = false) :
    (verifyInvitationToken db true now token).fst = .err .database_error ∧
    (verifyInvitationToken db true now token).fst ≠ .err .not_found := by
  constructor <;> simp [verifyInvitationToken, hblank]

/-- Witness for C5: a failing query on the non-blank token `"t"` yields
`database_error`. -/
theorem verify_query_failure_database_error_witness :
    (verifyInvitationToken [] true 0 "t").fst = .err .database_error :=
  (verify_query_failure_database_error [] 0 "t" (by decide)).1

/-- **C6.**  A blank token — the empty string, or whitespace only — makes
`verifyInvitationToken` return `{ error: 'not_found' }` while issuing zero
storage queries. -/
theorem verify_blank_token_short_circuit
    (db : List Invitation) (queryFails : Bool) (now : Nat) (token : String)
    (hblank : isBlankToken token = true) :
    verifyInvitationToken db queryFails now token = (.err .not_found, 0) := by
  simp [verifyInvitationToken, hblank]

/-- Witness for C6: the whitespace-only token `" "` short-circuits to
`not_found` with no query, even over a store whose queries would fail. -/
theorem verify_blank_token_short_circuit_witness :
    verifyInvitationToken [usedInv] true 5000 " " = (.err .not_found, 0) :=
  verify_blank_token_short_circuit [usedInv] true 5000 " " (by decide)

/-- **C7.**  Every invitation produced by `createInvitation` has its expiry
timestamp exactly seven days after its creation timestamp. -/
theorem createInvitation_expiry_seven_days (origin : String) (now : Nat)
    (newId token userId email : String) (role : Role) :
    (createInvitation origin now newId token userId email role).invitation.expires_at
      = (createInvitation origin now newId token userId email role).invitation.created_at
        + sevenDaysMs :=
  rfl

/-- Counterexample to C8 as stated: with two records sharing the token —
one already consumed, one unused and unexpired — `verifyInvitationToken`
returns the valid record (success), not `already_used`: the source looks
for a valid row *first* and only falls back to the used/expired checks when
none exists. -/
theorem verify_valid_beats_used_counterexample :
    usedInv.used = true ∧ freshInv.used = false ∧ 5000 < freshInv.expires_at ∧
    (verifyInvitationToken [usedInv, freshInv] false 5000 "t").fst = .ok freshInv := by
  decide

/-- **C8 (amended).**  When multiple invitation records share the presented
token, verification resolves in the precedence order: no record →
`not_found`; otherwise, some valid (unused, unexpired) record → success with
such a record, even when another matching record is already consumed;
otherwise some consumed record → `already_used`; otherwise some expired
record → `expired`. -/
theorem verify_resolution_precedence
    (db : List Invitation) (now : Nat) (token : String)
    (hblank : isBlankToken token = false) :
    (selectByToken db token = [] →
      (verifyInvitationToken db false now token).fst = .err .not_found) ∧
    ((∃ inv ∈ selectByToken db token, inv.isValid now = true) →
      ∃ v, v ∈ selectByToken db token ∧ v.isValid now = true ∧
        (verifyInvitationToken db false now token).fst = .ok v) ∧
    ((∀ inv ∈ selectByToken db token, inv.isValid now = false) →
      (∃ inv ∈ selectByToken db token, inv.used = true) →
      (verifyInvitationToken db false now token).fst = .err .already_used) ∧
    ((∀ inv ∈ selectByToken db token, inv.isValid now = false) →
      (∀ inv ∈ selectByToken db token, inv.used = false) →
      (∃ inv ∈ selectByToken db token, inv.isExpired now = true) →
      (verifyInvitationToken db false now token).fst = .err .expired) := by
  refine ⟨?_, ?_, ?_, ?_⟩
  · intro h
    rw [verify_eq_of_empty db now token hblank h]
  · intro h
    have hex : ∃ x, x ∈ selectByToken db token ∧ x.isValid now = true := by
      rcases h with ⟨x, hx, hpx⟩; exact ⟨x, hx, hpx⟩
    obtain ⟨v, hv⟩ := Option.isSome_iff_exists.mp (List.find?_isSome.mpr hex)
    have hpv : v.isValid now = true := by
      have hp := List.find?_some (p := fun (i : Invitation) => i.isValid now) hv
      simpa using hp
    refine ⟨v, List.mem_of_find?_eq_some hv, hpv, ?_⟩
    rw [verify_eq_of_find_valid db now token v hblank hv]
  · intro hall hsome
    have hv : (selectByToken db token).find? (fun i => i.isValid now) = none := by
      rw [List.find?_eq_none]
      intro x hx
      simp [hall x hx]
    have hex : ∃ x, x ∈ selectByToken db token ∧ x.isUsed = true := by
      rcases hsome with ⟨x, hx, hpx⟩
      exact ⟨x, hx, by simpa [Invitation.isUsed] using hpx⟩
    obtain ⟨u, hu⟩ := Option.isSome_iff_exists.mp (List.find?_isSome.mpr hex)
    rw [verify_eq_of_find_used db now token u hblank hv hu]
  · intro hall hnotused hsome
    have hv : (selectByToken db token).find? (fun i => i.isValid now) = none := by
      rw [List.find?_eq_none]
      intro x hx
      simp [hall x hx]
    have hu : (selectByToken db token).find? (fun i => i.isUsed) = none := by
      rw [List.find?_eq_none]
      intro x hx
      simp [Invitation.isUsed, hnotused x hx]
    have hex : ∃ x, x ∈ selectByToken db token ∧ x.isExpired now = true := by
      rcases hsome with ⟨x, hx, hpx⟩; exact ⟨x, hx, hpx⟩
    obtain ⟨e, he⟩ := Option.isSome_iff_exists.mp (List.find?_isSome.mpr hex)
    rw [verify_eq_of_find_expired db now token e hblank hv hu he]

/-- Witness for C8 (amended): one consumed and one expired row, no valid
row — the result is `already_used`. -/
theorem verify_resolution_precedence_witness :
    (verifyInvitationToken [usedInv, expiredInv] false 5000 "t").fst
      = .err .already_used :=
  (verify_resolution_precedence [usedInv, expiredInv] 5000 "t" (by decide)).2.2.1
    (by decide) (by decide)

/-- Counterexample to C9 as stated: deleting an identifier for which no
invitation exists still reports success — on an empty table, and
indistinguishably from the case where the row did exist — because removing
zero rows is not an error for the store and `deleteInvitation` has no
`not_found` outcome at all. -/
theorem deleteInvitation_absent_id_counterexample :
    (deleteInvitation [] false "i1").fst = DeleteOutcome.success ∧
    (deleteInvitation [usedInv] false "i1").fst = DeleteOutcome.success := by
  decide

/-- **C9 (amended).**  `deleteInvitation(id)` returns success whenever the
store reports no error — both when rows with that id existed (they are all
removed, every other row is kept) and when none did; a `not_found` outcome
does not exist.  Only a store error produces a different outcome: the error
is thrown and the table is untouched. -/
theorem deleteInvitation_success_iff_no_store_error
    (db : List Invitation) (id : String) :
    (deleteInvitation db false id).fst = .success ∧
    (∀ inv ∈ (deleteInvitation db false id).snd, inv.id ≠ id) ∧
    (∀ inv ∈ db, inv.id ≠ id → inv ∈ (deleteInvitation db false id).snd) ∧
    deleteInvitation db true id = (.thrown "delete failed", db) := by
  refine ⟨rfl, ?_, ?_, rfl⟩
  · intro inv hmem
    have h := (List.mem_filter.mp hmem).2
    simpa using h
  · intro inv hmem hne
    exact List.mem_filter.mpr ⟨hmem, by simpa using hne⟩

/-- Witness for C9 (amended): deleting id `"i1"` from a two-row table
succeeds and keeps the row with the other id. -/
theorem deleteInvitation_success_iff_no_store_error_witness :
    (deleteInvitation [usedInv, freshInv] false "i1").fst = DeleteOutcome.success ∧
    freshInv ∈ (deleteInvitation [usedInv, freshInv] false "i1").snd :=
  ⟨(deleteInvitation_success_iff_no_store_error [usedInv, freshInv] "i1").1,
   (deleteInvitation_success_iff_no_store_error [usedInv, freshInv] "i1").2.2.1
     freshInv (by decide) (by decide)⟩

/-- **C10.**  For every non-empty match set with no valid record, some
record is used or some is expired; hence the `{ error: 'invalid' }` fallback
of `verifyInvitationToken` is unreachable, and on a successful query the
result is always one of: a valid record, `not_found`, `already_used`, or
`expired`. -/
theorem verify_outcomes_exhaustive (db : List Invitation) (now : Nat) (token : String) :
    (verifyInvitationToken db false now token).fst ≠ .err .invalid ∧
    ((∃ v, (verifyInvitationToken db false now token).fst = .ok v) ∨
     (verifyInvitationToken db false now token).fst = .err .not_found ∨
     (verifyInvitationToken db false now token).fst = .err .already_used ∨
     (verifyInvitationToken db false now token).fst = .err .expired) := by
  by_cases hblank : isBlankToken token = true
  · have h : (verifyInvitationToken db false now token).fst = .err .not_found := by
      simp [verifyInvitationToken, hblank]
    rw [h]
    exact ⟨by simp, Or.inr (Or.inl rfl)⟩
  · have hb : isBlankToken token = false := by
      simpa using hblank
    cases hl : selectByToken db token with
    | nil =>
      rw [verify_eq_of_empty db now token hb hl]
      exact ⟨by simp, Or.inr (Or.inl rfl)⟩
    | cons a as =>
      cases hv : (selectByToken db token).find? (fun i => i.isValid now) with
      | some v =>
        rw [verify_eq_of_find_valid db now token v hb hv]
        exact ⟨by simp, Or.inl ⟨v, rfl⟩⟩
      | none =>
        cases hu : (selectByToken db token).find? (fun i => i.isUsed) with
        | some u =>
          rw [verify_eq_of_find_used db now token u hb hv hu]
          exact ⟨by simp, Or.inr (Or.inr (Or.inl rfl))⟩
        | none =>
          cases he : (selectByToken db token).find? (fun i => i.isExpired now) with
          | some e =>
            rw [verify_eq_of_find_expired db now token e hb hv hu he]
            exact ⟨by simp, Or.inr (Or.inr (Or.inr rfl))⟩
          | none =>
            exfalso
            have ha : a ∈ selectByToken db token := by
              rw [hl]; exact List.mem_cons_self a as
            have h1 := List.find?_eq_none.mp hv a ha
            have h2 := List.find?_eq_none.mp hu a ha
            have h3 := List.find?_eq_none.mp he a ha
            apply h1
            have h2' : a.isUsed = false := by
              simpa using h2
            have h3' : a.isExpired now = false := by
              simpa using h3
            simp [Invitation.isValid, h2', h3']

/-- Witness for C10 at a concrete input: the fallback is not hit on the
two-row table of used and expired invitations. -/
theorem verify_outcomes_exhaustive_witness :
    (verifyInvitationToken [usedInv, expiredInv] false 5000 "t").fst
      ≠ .err .invalid :=
  (verify_outcomes_exhaustive [usedInv, expiredInv] 5000 "t").1

end TodoHeroHub
